import Mathlib

/-!
# Verification of the reMarkable `.rm` stroke renderer (`src/model/render.py`)

Shallow embedding of the binary stroke decoder and the per-stroke style and
geometry pipeline of `_render_rm_file`, together with the page loop of `pdf`.

Modelling conventions:
* The byte buffer is a `List Nat`, one entry per byte.  All multi-byte reads
  are little-endian, as in the Python `struct` format strings (`'<...'`).
* At the byte level every 4-byte field (including the `f` float fields) is
  kept as its raw 32-bit word: the cursor arithmetic of the decoder never
  depends on the floating-point interpretation of those words.
* Python float arithmetic in the style and geometry formulas is modelled as
  exact rational arithmetic over `ℚ`.
* Python exceptions are modelled with `Except PyError`:
  `structError` for `struct.error` raised by `struct.unpack_from`,
  `nameError` for the calls to the undefined global name `abort`,
  `indexError` for `points[0]` on an empty list,
  `keyError` for `default_stroke_color[color]` with an unknown key.
* The reportlab canvas is modelled as the list of drawing commands issued to
  it (`CanvasOp`); the source interleaves decoding and drawing in one loop,
  which we split into a byte-level decoder and a value-level renderer with
  identical observable behaviour.
-/

inductive PyError where
  | structError
  | nameError
  | indexError
  | keyError
deriving DecidableEq, Repr

instance {ε α : Type} [DecidableEq ε] [DecidableEq α] : DecidableEq (Except ε α)
  | .ok a, .ok b => if h : a = b then isTrue (by rw [h]) else isFalse (by simp [h])
  | .ok _, .error _ => isFalse (by simp)
  | .error _, .ok _ => isFalse (by simp)
  | .error a, .error b => if h : a = b then isTrue (by rw [h]) else isFalse (by simp [h])

/-- Python's builtin `max` on two floats. -/
def pymax (a b : ℚ) : ℚ := if b > a then b else a

/-! ## Byte cursor (the `struct.unpack_from` / `offset` discipline) -/

/-- Little-endian 4-byte encoding of a 32-bit word. -/
def u32 (n : Nat) : List Nat :=
  [n % 256, n / 256 % 256, n / 65536 % 256, n / 16777216 % 256]

/-- Little-endian recombination of four bytes. -/
def decodeLE4 (b0 b1 b2 b3 : Nat) : Nat :=
  b0 + 256 * b1 + 65536 * b2 + 16777216 * b3

/-- Read `n` raw bytes at `off`; `struct.error` if the buffer is too short. -/
def readBytes (data : List Nat) (off n : Nat) : Except PyError (List Nat × Nat) :=
  if off + n ≤ data.length then .ok ((data.drop off).take n, off + n)
  else .error .structError

/-- Read one little-endian `I` (or raw `f`) field at `off`: the next four
bytes must exist. -/
def readU32 (data : List Nat) (off : Nat) : Except PyError (Nat × Nat) :=
  match data.drop off with
  | b0 :: b1 :: b2 :: b3 :: _ => .ok (decodeLE4 b0 b1 b2 b3, off + 4)
  | _ => .error .structError

/-! ## Byte-level file structure (fields as raw 32-bit words) -/

/-- One segment record: `'<ffffff'`, six 4-byte fields kept as raw words. -/
structure BSegment where
  x : Nat
  y : Nat
  i_unk2 : Nat
  pressure : Nat
  tilt : Nat
  pad : Nat
deriving DecidableEq, Repr

/-- One stroke record: `'<IIIfI'` (v3) or `'<IIIffI'` (v5) followed by its
segment records.  `extra` is the additional v5 float (raw word). -/
structure BStroke where
  pen : Nat
  color : Nat
  i_unk : Nat
  pen_width : Nat
  extra : Option Nat
  segments : List BSegment
deriving DecidableEq, Repr

/-- A whole `.rm` file: version tag (3 or 5) and the per-layer stroke lists. -/
structure BFile where
  version : Nat
  layers : List (List BStroke)
deriving DecidableEq, Repr

/-- `b'reMarkable .lines file, version=3          '` (43 bytes). -/
def expected_header_v3 : List Nat :=
  "reMarkable .lines file, version=3          ".toList.map Char.toNat

/-- `b'reMarkable .lines file, version=5          '` (43 bytes). -/
def expected_header_v5 : List Nat :=
  "reMarkable .lines file, version=5          ".toList.map Char.toNat

/-! ## Encoder (the binary layout of §6 of the spec, from the `struct` calls) -/

def encSegment (s : BSegment) : List Nat :=
  u32 s.x ++ u32 s.y ++ u32 s.i_unk2 ++ u32 s.pressure ++ u32 s.tilt ++ u32 s.pad

def encStroke (s : BStroke) : List Nat :=
  u32 s.pen ++ u32 s.color ++ u32 s.i_unk ++ u32 s.pen_width ++
  (match s.extra with | some u => u32 u | none => []) ++
  u32 s.segments.length ++ (s.segments.map encSegment).flatten

def encLayer (l : List BStroke) : List Nat :=
  u32 l.length ++ (l.map encStroke).flatten

def encFile (f : BFile) : List Nat :=
  (if f.version == 3 then expected_header_v3 else expected_header_v5) ++
  u32 f.layers.length ++ (f.layers.map encLayer).flatten

/-! ## Well-formedness: field values fit in 32 bits, the v5 extra float is
present exactly for version-5 files, the tag is one of the two accepted
values and the layer count is at least 1. -/

def wfSegment (s : BSegment) : Bool :=
  s.x < 2 ^ 32 && s.y < 2 ^ 32 && s.i_unk2 < 2 ^ 32 &&
  s.pressure < 2 ^ 32 && s.tilt < 2 ^ 32 && s.pad < 2 ^ 32

def wfStroke (v5 : Bool) (s : BStroke) : Bool :=
  s.pen < 2 ^ 32 && s.color < 2 ^ 32 && s.i_unk < 2 ^ 32 && s.pen_width < 2 ^ 32 &&
  (match s.extra with | some u => v5 && u < 2 ^ 32 | none => !v5) &&
  s.segments.length < 2 ^ 32 && s.segments.all wfSegment

def wfFile (f : BFile) : Bool :=
  (f.version == 3 || f.version == 5) &&
  1 ≤ f.layers.length && f.layers.length < 2 ^ 32 &&
  f.layers.all (fun l => l.length < 2 ^ 32 && l.all (wfStroke (f.version == 5)))

/-! ## Decoder (cursor behaviour of `_render_rm_file`, lines 190-309) -/

def decSegment (data : List Nat) (off : Nat) : Except PyError (BSegment × Nat) := do
  let (x, off) ← readU32 data off
  let (y, off) ← readU32 data off
  let (i2, off) ← readU32 data off
  let (pr, off) ← readU32 data off
  let (ti, off) ← readU32 data off
  let (pd, off) ← readU32 data off
  pure (⟨x, y, i2, pr, ti, pd⟩, off)

def decSegments (data : List Nat) : Nat → Nat → Except PyError (List BSegment × Nat)
  | 0, off => pure ([], off)
  | n + 1, off => do
    let (s, off) ← decSegment data off
    let (rest, fin) ← decSegments data n off
    pure (s :: rest, fin)

def decStroke (v5 : Bool) (data : List Nat) (off : Nat) :
    Except PyError (BStroke × Nat) := do
  let (pen, off) ← readU32 data off
  let (color, off) ← readU32 data off
  let (iu, off) ← readU32 data off
  let (pw, off) ← readU32 data off
  let (extra, off) ←
    if v5 then do
      let (u, off) ← readU32 data off
      pure (some u, off)
    else pure ((none : Option Nat), off)
  let (nseg, off) ← readU32 data off
  let (segs, fin) ← decSegments data nseg off
  pure (⟨pen, color, iu, pw, extra, segs⟩, fin)

def decStrokes (v5 : Bool) (data : List Nat) :
    Nat → Nat → Except PyError (List BStroke × Nat)
  | 0, off => pure ([], off)
  | n + 1, off => do
    let (s, off) ← decStroke v5 data off
    let (rest, fin) ← decStrokes v5 data n off
    pure (s :: rest, fin)

def decLayers (v5 : Bool) (data : List Nat) :
    Nat → Nat → Except PyError (List (List BStroke) × Nat)
  | 0, off => pure ([], off)
  | n + 1, off => do
    let (ns, off) ← readU32 data off
    let (strokes, off2) ← decStrokes v5 data ns off
    let (rest, fin) ← decLayers v5 data n off2
    pure (strokes :: rest, fin)

/-- The header-validation and decode portion of `_render_rm_file`:
length check (line 193, `abort` on failure), 43-byte tag + `nlayers`
(line 196-197), tag/`nlayers` validation (line 200, `abort` on failure,
where `abort` is an undefined name and raises `NameError`), then the
per-layer / per-stroke / per-segment reads.  Returns the decoded file and
the final cursor offset. -/
def decodeRm (data : List Nat) : Except PyError (BFile × Nat) :=
  if data.length < 47 then .error .nameError
  else do
    let (tag, off) ← readBytes data 0 43
    let (nlayers, off) ← readU32 data off
    let is_v3 := tag == expected_header_v3
    let is_v5 := tag == expected_header_v5
    if (!is_v3 && !is_v5) || nlayers == 0 then .error .nameError
    else do
      let (layers, fin) ← decLayers is_v5 data nlayers off
      pure (⟨if is_v3 then 3 else 5, layers⟩, fin)

/-- The per-page loop of `pdf` (lines 45-67): a missing `.rm` file yields
`none` for that page; a present file is decoded (and rendered), and any
exception raised inside `_render_rm_file` propagates out of `pdf` — there
is no `try`/`except` around the call. -/
def pdf_pages : List (Option (List Nat)) → Except PyError (List (Option (BFile × Nat)))
  | [] => pure []
  | none :: rest => do
    let r ← pdf_pages rest
    pure (none :: r)
  | some data :: rest => do
    let bf ← decodeRm data
    let r ← pdf_pages rest
    pure (some bf :: r)

/-! ## Colors (`reportlab.lib.colors.Color`, alpha defaults to 1) -/

structure RLColor where
  r : ℚ
  g : ℚ
  b : ℚ
  a : ℚ
deriving DecidableEq, Repr

/-- `default_stroke_color` (lines 25-32); indexing a missing key is a
`KeyError`, hence the `Option`. -/
def default_stroke_color : Nat → Option RLColor
  | 0 => some ⟨48/255, 63/255, 159/255, 1⟩
  | 1 => some ⟨211/255, 47/255, 47/255, 1⟩
  | 2 => some ⟨255/255, 255/255, 255/255, 1⟩
  | 3 => some ⟨255/255, 255/255, 0, 0.25⟩
  | 4 => some ⟨97/255, 97/255, 97/255, 1⟩
  | _ => none

def DEFAULT_IMAGE_WIDTH : ℚ := 1404

def DEFAULT_IMAGE_HEIGHT : ℚ := 1872

/-! ## Geometry setup (lines 171-185) -/

/-- The four entries of a crop box `[c0, c1, c2, c3]`. -/
structure CropBox where
  c0 : ℚ
  c1 : ℚ
  c2 : ℚ
  c3 : ℚ
deriving DecidableEq, Repr

structure Layout where
  is_landscape : Bool
  image_width : ℚ
  image_height : ℚ
  crop_box : CropBox
  ratio : ℚ
deriving DecidableEq, Repr

/-- Lines 171-185: landscape swap, crop-box default, overlay dimensions and
the uniform scale ratio. -/
def computeLayout (image_width0 image_height0 : ℚ) (crop_box0 : Option CropBox) :
    Layout :=
  let is_landscape : Bool := decide (image_width0 > image_height0)
  let image_width := if is_landscape then image_height0 else image_width0
  let image_height := if is_landscape then image_width0 else image_height0
  let crop_box := crop_box0.getD ⟨0, 0, image_width, image_height⟩
  if is_landscape then
    let image_width := crop_box.c2 - crop_box.c0
    let image_height := pymax image_height (image_width * DEFAULT_IMAGE_HEIGHT / DEFAULT_IMAGE_WIDTH)
    ⟨true, image_width, image_height, crop_box, image_height / DEFAULT_IMAGE_HEIGHT⟩
  else
    let image_height := crop_box.c3 - crop_box.c1
    let image_width := pymax image_width (image_height * DEFAULT_IMAGE_WIDTH / DEFAULT_IMAGE_HEIGHT)
    ⟨false, image_width, image_height, crop_box, image_width / DEFAULT_IMAGE_WIDTH⟩

/-! ## Pen classification (lines 257-265) -/

def is_highlighter (pen : Nat) : Bool := pen == 5 || pen == 18

def is_eraser (pen : Nat) : Bool := pen == 6

def is_eraser_area (pen : Nat) : Bool := pen == 8

def is_sharp_pencil (pen : Nat) : Bool := pen == 7 || pen == 13

def is_tilt_pencil (pen : Nat) : Bool := pen == 1 || pen == 14

def is_marker (pen : Nat) : Bool := pen == 3 || pen == 16

def is_ballpoint (pen : Nat) : Bool := pen == 2 || pen == 15

def is_fineliner (pen : Nat) : Bool := pen == 4 || pen == 17

def is_brush (pen : Nat) : Bool := pen == 0 || pen == 12

/-- The `else` branch of the tool dispatch (line 289) is reached exactly when
no classifier matches. -/
def isUnknownPen (pen : Nat) : Bool :=
  !(is_brush pen || is_ballpoint pen || is_fineliner pen || is_marker pen ||
    is_highlighter pen || is_eraser pen || is_sharp_pencil pen ||
    is_tilt_pencil pen || is_eraser_area pen)

/-! ## Style calculation (lines 252-291) -/

structure StrokeStyle where
  color : Nat
  pen_width : ℚ
  opacity : ℚ
deriving DecidableEq, Repr

/-- The tool dispatch of lines 252-291: pencil color override, then the
`if`/`elif` chain mutating `pen_width`, `opacity` and `color`. -/
def strokeStyle (pen colorIn : Nat) (pen_width : ℚ) : StrokeStyle :=
  let opacity : ℚ := 1
  let color := if is_sharp_pencil pen || is_tilt_pencil pen then 4 else colorIn
  if is_brush pen then
    ⟨color, pen_width, opacity⟩
  else if is_ballpoint pen || is_fineliner pen then
    ⟨color, 32 * pen_width * pen_width - 116 * pen_width + 107, opacity⟩
  else if is_marker pen then
    ⟨color, 64 * pen_width - 112, 0.9⟩
  else if is_highlighter pen then
    ⟨3, 30, 0.2⟩
  else if is_eraser pen then
    ⟨2, 1280 * pen_width * pen_width - 4800 * pen_width + 4510, opacity⟩
  else if is_sharp_pencil pen || is_tilt_pencil pen then
    ⟨color, 16 * pen_width - 27, 0.9⟩
  else if is_eraser_area pen then
    ⟨color, pen_width, 0⟩
  else
    ⟨color, pen_width, 0⟩

/-- Per-segment width blending (lines 300-303), including the `* ratio`
page scaling. -/
def segment_width (pen : Nat) (pen_width pressure tilt ratio : ℚ) : ℚ :=
  if is_ballpoint pen || is_brush pen then (6 * pen_width + 2 * pressure) / 8 * ratio
  else (5 * pen_width + 2 * tilt + 1 * pressure) / 8 * ratio

/-! ## Value-level file structure (floats as exact rationals) -/

structure Segment where
  x : ℚ
  y : ℚ
  i_unk2 : ℚ
  pressure : ℚ
  tilt : ℚ
  pad : ℚ
deriving DecidableEq, Repr

structure Stroke where
  pen : Nat
  color : Nat
  i_unk : Nat
  pen_width : ℚ
  extra : Option ℚ
  segments : List Segment
deriving DecidableEq, Repr

/-! ## Geometry transform (lines 305-307) -/

def transformPoint (L : Layout) (x y : ℚ) : ℚ × ℚ :=
  (L.ratio * x + L.crop_box.c0, L.image_height - L.ratio * y + L.crop_box.c1)

def strokePoints (L : Layout) (st : Stroke) : List (ℚ × ℚ) :=
  st.segments.map (fun s => transformPoint L s.x s.y)

def strokeWidths (L : Layout) (st : Stroke) : List ℚ :=
  st.segments.map (fun s =>
    segment_width st.pen (strokeStyle st.pen st.color st.pen_width).pen_width
      s.pressure s.tilt L.ratio)

/-! ## Canvas command stream (the reportlab calls of lines 311-329) -/

inductive CanvasOp where
  | setLineCap (c : Nat)
  | setStrokeColor (c : RLColor)
  | setLineWidth (w : ℚ)
  | moveTo (x y : ℚ)
  | lineTo (x y : ℚ)
  | closePath
  | drawPath
deriving DecidableEq, Repr

/-- Lines 315-318: layer override color if present, else
`default_stroke_color[color]` (a `KeyError` if absent, hence `none`). -/
def resolveColor (layerColor : Option RLColor) (color : Nat) : Option RLColor :=
  match layerColor with
  | none => default_stroke_color color
  | some col => some col

/-- The body of the `for i in range(0, len(points), 2)` loop (lines 322-327),
over the zipped (point, width) pairs; `j` is `i/2`, and `i % 10 == 0` is
`j % 5 == 0`.  In the pipeline `points` and `width` always have one entry
per segment, so zipping loses nothing. -/
def drawLoop : List ((ℚ × ℚ) × ℚ) → Nat → List CanvasOp
  | [], _ => []
  | (pt, w) :: rest, j =>
    [.setLineWidth w, .lineTo pt.1 pt.2, .moveTo pt.1 pt.2] ++
    (if j % 5 == 0 then [.closePath] else []) ++
    drawLoop rest (j + 1)

/-- Lines 311-329: the drawing commands issued for one stroke.  The computed
`opacity` is in scope here (it is an argument, inside `sty`) but the code
never passes it to the canvas.  `points[0]` on an empty list raises
`IndexError`; an unknown color key raises `KeyError` (and is attempted
first, matching source order). -/
def strokeDraw (layerColor : Option RLColor) (sty : StrokeStyle)
    (points : List (ℚ × ℚ)) (widths : List ℚ) : Except PyError (List CanvasOp) :=
  match resolveColor layerColor sty.color with
  | none => .error .keyError
  | some col =>
    match points with
    | [] => .error .indexError
    | p0 :: _ =>
      .ok ([.setLineCap 1, .setStrokeColor col, .moveTo p0.1 p0.2] ++
           drawLoop (points.zip widths) 0 ++ [.closePath, .drawPath])

/-- One stroke of the layer loop: compute the style, decode/transform the
segments, then either skip (`if is_eraser_area or is_eraser: continue`,
line 308) or draw. -/
def renderStroke (L : Layout) (layerColor : Option RLColor) (st : Stroke) :
    Except PyError (List CanvasOp) :=
  if is_eraser_area st.pen || is_eraser st.pen then .ok []
  else strokeDraw layerColor (strokeStyle st.pen st.color st.pen_width)
        (strokePoints L st) (strokeWidths L st)

def renderStrokes (L : Layout) (layerColor : Option RLColor) :
    List Stroke → Except PyError (List CanvasOp)
  | [] => pure []
  | st :: rest => do
    let ops ← renderStroke L layerColor st
    let more ← renderStrokes L layerColor rest
    pure (ops ++ more)

def renderLayers (L : Layout) :
    List (Option RLColor) → List (List Stroke) → Except PyError (List CanvasOp)
  | _, [] => pure []
  | lcs, l :: rest => do
    let ops ← renderStrokes L (lcs.headD none) l
    let more ← renderLayers L lcs.tail rest
    pure (ops ++ more)

/-- The produced overlay: canvas page size, the command stream, and the
`page.Rotate = 90` tag set on every page when landscape (lines 335-337). -/
structure Overlay where
  width : ℚ
  height : ℚ
  ops : List CanvasOp
  rotate : Option Nat
deriving DecidableEq, Repr

/-- The rendering part of `_render_rm_file` on the decoded values: geometry
setup, the layer/stroke loops, and the final rotation tag. -/
def render_rm_file (image_width image_height : ℚ) (crop_box : Option CropBox)
    (layerColors : List (Option RLColor)) (layers : List (List Stroke)) :
    Except PyError Overlay := do
  let L := computeLayout image_width image_height crop_box
  let ops ← renderLayers L layerColors layers
  pure ⟨L.image_width, L.image_height, ops,
        if L.is_landscape then some 90 else none⟩

/-! ## Observation helpers on command streams -/

def opsOf : Except PyError (List CanvasOp) → List CanvasOp
  | .ok ops => ops
  | .error _ => []

def overlayOps : Except PyError Overlay → List CanvasOp
  | .ok ov => ov.ops
  | .error _ => []

def countDrawPath : List CanvasOp → Nat
  | [] => 0
  | .drawPath :: rest => 1 + countDrawPath rest
  | _ :: rest => countDrawPath rest

def widthsOf (ops : List CanvasOp) : List ℚ :=
  ops.filterMap (fun op => match op with | .setLineWidth w => some w | _ => none)

def colorsOf (ops : List CanvasOp) : List RLColor :=
  ops.filterMap (fun op => match op with | .setStrokeColor c => some c | _ => none)

/-! ## Concrete example values used by witnesses and counterexamples -/

def exSegW : BSegment := ⟨10, 20, 3, 30, 40, 7⟩

def exStrokeW : BStroke := ⟨5, 0, 0, 1077936128, some 0, [exSegW, ⟨1, 2, 3, 4, 5, 6⟩]⟩

/-- A version-5 file with two layers: one stroke of two segments, and an
empty layer. -/
def exFileW : BFile := ⟨5, [[exStrokeW], []]⟩

/-- 47 bytes whose 43-byte tag (all `'A'`) matches neither accepted header,
with a nonzero layer count. -/
def badTagData : List Nat := List.replicate 43 65 ++ u32 1

/-- The portrait layout produced by the default 1404 x 1872 page. -/
def exLayout : Layout := ⟨false, 1404, 1872, ⟨0, 0, 1404, 1872⟩, 1⟩

/-- An eraser-area stroke (pen 8) with one segment. -/
def exStroke8 : Stroke := ⟨8, 0, 0, 1, some 0, [⟨1, 2, 0, 0, 0, 0⟩]⟩

/-- A stroke with unknown tool id 9 and one segment. -/
def exStroke9 : Stroke := ⟨9, 0, 0, 1, some 0, [⟨1, 2, 0, 0, 0, 0⟩]⟩

/-- A drawable (fineliner) stroke with zero segments. -/
def exStrokeEmpty : Stroke := ⟨4, 0, 0, 2, some 0, []⟩

/-- A highlighter stroke (pen 5, width 2.0) with two segments carrying
nonzero pressure/tilt. -/
def exStrokeHL : Stroke := ⟨5, 0, 0, 2, some 0, [⟨1, 2, 0, 1, 1, 0⟩, ⟨3, 4, 0, 0, 0, 0⟩]⟩

/-- The version-5 scenario of spec section 8, item 7: default page, no
metadata, one layer, one highlighter stroke (pen 5, raw width 2.0) with two
segments at arbitrary positions, pressures and tilts. -/
def hlScenario (c iu : Nat) (uf x1 y1 i1 p1 t1 r1 x2 y2 i2 p2 t2 r2 : ℚ) :
    Except PyError Overlay :=
  render_rm_file 1404 1872 none []
    [[⟨5, c, iu, 2, some uf, [⟨x1, y1, i1, p1, t1, r1⟩, ⟨x2, y2, i2, p2, t2, r2⟩]⟩]]

/-! ## Decoder correctness lemmas -/

theorem ebind_ok {α β : Type} (a : α) (f : α → Except PyError β) :
    (Except.ok a >>= f) = f a := rfl

theorem ebind_err {α β : Type} (e : PyError) (f : α → Except PyError β) :
    ((Except.error e : Except PyError α) >>= f) = .error e := rfl

theorem epure_eq {α : Type} (a : α) : (pure a : Except PyError α) = .ok a := rfl

theorem emap_ok {α β : Type} (f : α → β) (a : α) :
    (f <$> (Except.ok a : Except PyError α)) = .ok (f a) := rfl

theorem emap_err {α β : Type} (f : α → β) (e : PyError) :
    (f <$> (Except.error e : Except PyError α)) = .error e := rfl

theorem u32_length (n : Nat) : (u32 n).length = 4 := rfl

/-- Reading back a little-endian encoded word at the cursor. -/
theorem readU32_ok {data : List Nat} {off n : Nat} {rest : List Nat}
    (h : data.drop off = u32 n ++ rest) (hn : n < 2 ^ 32) :
    readU32 data off = .ok (n, off + 4) ∧ data.drop (off + 4) = rest := by
  constructor
  · unfold readU32
    rw [h]
    show Except.ok (decodeLE4 (n % 256) (n / 256 % 256) (n / 65536 % 256) (n / 16777216 % 256), off + 4) = _
    have hd : decodeLE4 (n % 256) (n / 256 % 256) (n / 65536 % 256) (n / 16777216 % 256) = n := by
      unfold decodeLE4
      omega
    rw [hd]
  · have hdd : data.drop (off + 4) = (data.drop off).drop 4 := by
      rw [List.drop_drop]
    rw [hdd, h]
    rfl

theorem encSegment_length (s : BSegment) : (encSegment s).length = 24 := rfl

/-- Decoding one encoded segment record advances the cursor by exactly its
24 bytes and recovers the record. -/
theorem decSegment_ok {data : List Nat} {off : Nat} {s : BSegment} {rest : List Nat}
    (h : data.drop off = encSegment s ++ rest) (hs : wfSegment s = true) :
    decSegment data off = .ok (s, off + 24) ∧ data.drop (off + 24) = rest := by
  simp only [wfSegment, Bool.and_eq_true, decide_eq_true_eq] at hs
  obtain ⟨⟨⟨⟨⟨hx, hy⟩, hi⟩, hp⟩, ht⟩, hd⟩ := hs
  have h0 : data.drop off =
      u32 s.x ++ (u32 s.y ++ (u32 s.i_unk2 ++ (u32 s.pressure ++
        (u32 s.tilt ++ (u32 s.pad ++ rest))))) := by
    simpa [encSegment, List.append_assoc] using h
  obtain ⟨r1, d1⟩ := readU32_ok h0 hx
  obtain ⟨r2, d2⟩ := readU32_ok d1 hy
  obtain ⟨r3, d3⟩ := readU32_ok d2 hi
  obtain ⟨r4, d4⟩ := readU32_ok d3 hp
  obtain ⟨r5, d5⟩ := readU32_ok d4 ht
  obtain ⟨r6, d6⟩ := readU32_ok d5 hd
  have hoff : off + 4 + 4 + 4 + 4 + 4 + 4 = off + 24 := by omega
  constructor
  · simp only [decSegment, r1, r2, r3, r4, r5, r6, ebind_ok, epure_eq]
  · rw [← hoff]
    exact d6

/-- Decoding a run of encoded segment records recovers the list and advances
the cursor by its total size. -/
theorem decSegments_ok {data : List Nat} :
    ∀ (l : List BSegment) (off : Nat) (rest : List Nat),
    data.drop off = (l.map encSegment).flatten ++ rest →
    (∀ s ∈ l, wfSegment s = true) →
    decSegments data l.length off =
      .ok (l, off + ((l.map encSegment).flatten).length) ∧
    data.drop (off + ((l.map encSegment).flatten).length) = rest := by
  intro l
  induction l with
  | nil =>
    intro off rest h _
    refine ⟨?_, ?_⟩
    · simp [decSegments, epure_eq]
    · simpa using h
  | cons s l ih =>
    intro off rest h hwf
    have h0 : data.drop off = encSegment s ++ ((l.map encSegment).flatten ++ rest) := by
      simpa [List.append_assoc] using h
    obtain ⟨r1, d1⟩ := decSegment_ok h0 (hwf s (by simp))
    obtain ⟨r2, d2⟩ := ih (off + 24) rest d1 (fun t ht => hwf t (by simp [ht]))
    have hlen : ((List.map encSegment (s :: l)).flatten).length =
        24 + ((l.map encSegment).flatten).length := by
      simp [encSegment_length]
    refine ⟨?_, ?_⟩
    · show decSegments data (l.length + 1) off = _
      simp only [decSegments, r1, r2, ebind_ok, epure_eq]
      rw [hlen]
      congr 2
      omega
    · rw [hlen]
      have : off + (24 + ((l.map encSegment).flatten).length) =
          off + 24 + ((l.map encSegment).flatten).length := by omega
      rw [this]
      exact d2

/-- Decoding one encoded stroke record (v3 or v5 layout, decided by the
well-formedness tie between `extra` and the version flag) recovers the
record and advances the cursor by its exact size. -/
theorem decStroke_ok {v5 : Bool} {data : List Nat} {off : Nat} {s : BStroke} {rest : List Nat}
    (h : data.drop off = encStroke s ++ rest) (hs : wfStroke v5 s = true) :
    decStroke v5 data off = .ok (s, off + (encStroke s).length) ∧
    data.drop (off + (encStroke s).length) = rest := by
  obtain ⟨pen, color, iu, pw, extra, segs⟩ := s
  simp only [wfStroke, Bool.and_eq_true, decide_eq_true_eq] at hs
  obtain ⟨⟨⟨⟨⟨⟨hpen, hcol⟩, hiu⟩, hpw⟩, hex⟩, hlen⟩, hsegs⟩ := hs
  have hsegs' : ∀ t ∈ segs, wfSegment t = true := by
    simpa [List.all_eq_true] using hsegs
  cases extra with
  | some u =>
    simp only [Bool.and_eq_true, decide_eq_true_eq] at hex
    obtain ⟨hv5, hu⟩ := hex
    subst hv5
    have h0 : data.drop off = u32 pen ++ (u32 color ++ (u32 iu ++ (u32 pw ++
        (u32 u ++ (u32 segs.length ++ ((segs.map encSegment).flatten ++ rest)))))) := by
      simpa [encStroke, List.append_assoc] using h
    obtain ⟨r1, d1⟩ := readU32_ok h0 hpen
    obtain ⟨r2, d2⟩ := readU32_ok d1 hcol
    obtain ⟨r3, d3⟩ := readU32_ok d2 hiu
    obtain ⟨r4, d4⟩ := readU32_ok d3 hpw
    obtain ⟨r5, d5⟩ := readU32_ok d4 hu
    obtain ⟨r6, d6⟩ := readU32_ok d5 hlen
    obtain ⟨r7, d7⟩ := decSegments_ok segs (off + 24) rest d6 hsegs'
    have hL : (encStroke ⟨pen, color, iu, pw, some u, segs⟩).length =
        24 + ((segs.map encSegment).flatten).length := by
      simp [encStroke, u32_length, List.length_append]
      omega
    refine ⟨?_, ?_⟩
    · simp only [decStroke, r1, r2, r3, r4, r5, r6, r7, ebind_ok, epure_eq, if_true, hL]
      congr 2
      omega
    · rw [hL]
      have harith : off + (24 + ((segs.map encSegment).flatten).length) =
          off + 24 + ((segs.map encSegment).flatten).length := by omega
      rw [harith]
      exact d7
  | none =>
    have hv5 : v5 = false := by simpa using hex
    subst hv5
    have h0 : data.drop off = u32 pen ++ (u32 color ++ (u32 iu ++ (u32 pw ++
        (u32 segs.length ++ ((segs.map encSegment).flatten ++ rest))))) := by
      simpa [encStroke, List.append_assoc] using h
    obtain ⟨r1, d1⟩ := readU32_ok h0 hpen
    obtain ⟨r2, d2⟩ := readU32_ok d1 hcol
    obtain ⟨r3, d3⟩ := readU32_ok d2 hiu
    obtain ⟨r4, d4⟩ := readU32_ok d3 hpw
    obtain ⟨r5, d5⟩ := readU32_ok d4 hlen
    obtain ⟨r6, d6⟩ := decSegments_ok segs (off + 20) rest d5 hsegs'
    have hL : (encStroke ⟨pen, color, iu, pw, none, segs⟩).length =
        20 + ((segs.map encSegment).flatten).length := by
      simp [encStroke, u32_length, List.length_append]
      omega
    refine ⟨?_, ?_⟩
    · simp only [decStroke, r1, r2, r3, r4, r5, r6, ebind_ok, epure_eq,
        Bool.false_eq_true, if_false, hL]
      congr 2
      omega
    · rw [hL]
      have harith : off + (20 + ((segs.map encSegment).flatten).length) =
          off + 20 + ((segs.map encSegment).flatten).length := by omega
      rw [harith]
      exact d6

/-- Decoding a run of encoded stroke records. -/
theorem decStrokes_ok {v5 : Bool} {data : List Nat} :
    ∀ (l : List BStroke) (off : Nat) (rest : List Nat),
    data.drop off = (l.map encStroke).flatten ++ rest →
    (∀ s ∈ l, wfStroke v5 s = true) →
    decStrokes v5 data l.length off =
      .ok (l, off + ((l.map encStroke).flatten).length) ∧
    data.drop (off + ((l.map encStroke).flatten).length) = rest := by
  intro l
  induction l with
  | nil =>
    intro off rest h _
    refine ⟨?_, ?_⟩
    · simp [decStrokes, epure_eq]
    · simpa using h
  | cons s l ih =>
    intro off rest h hwf
    have h0 : data.drop off = encStroke s ++ ((l.map encStroke).flatten ++ rest) := by
      simpa [List.append_assoc] using h
    obtain ⟨r1, d1⟩ := decStroke_ok h0 (hwf s (by simp))
    obtain ⟨r2, d2⟩ := ih (off + (encStroke s).length) rest d1
      (fun t ht => hwf t (by simp [ht]))
    have hlen : ((List.map encStroke (s :: l)).flatten).length =
        (encStroke s).length + ((l.map encStroke).flatten).length := by
      simp
    refine ⟨?_, ?_⟩
    · show decStrokes v5 data (l.length + 1) off = _
      simp only [decStrokes, r1, r2, ebind_ok, epure_eq]
      rw [hlen]
      congr 2
      omega
    · rw [hlen]
      have harith : off + ((encStroke s).length + ((l.map encStroke).flatten).length) =
          off + (encStroke s).length + ((l.map encStroke).flatten).length := by omega
      rw [harith]
      exact d2

/-- Decoding a run of encoded layers (stroke count + stroke records each). -/
theorem decLayers_ok {v5 : Bool} {data : List Nat} :
    ∀ (ls : List (List BStroke)) (off : Nat) (rest : List Nat),
    data.drop off = (ls.map encLayer).flatten ++ rest →
    (∀ l ∈ ls, l.length < 2 ^ 32 ∧ ∀ s ∈ l, wfStroke v5 s = true) →
    decLayers v5 data ls.length off =
      .ok (ls, off + ((ls.map encLayer).flatten).length) ∧
    data.drop (off + ((ls.map encLayer).flatten).length) = rest := by
  intro ls
  induction ls with
  | nil =>
    intro off rest h _
    refine ⟨?_, ?_⟩
    · simp [decLayers, epure_eq]
    · simpa using h
  | cons l ls ih =>
    intro off rest h hwf
    have h0 : data.drop off =
        u32 l.length ++ ((l.map encStroke).flatten ++
          ((ls.map encLayer).flatten ++ rest)) := by
      simpa [encLayer, List.append_assoc] using h
    obtain ⟨r1, d1⟩ := readU32_ok h0 (hwf l (by simp)).1
    obtain ⟨r2, d2⟩ := decStrokes_ok l (off + 4) ((ls.map encLayer).flatten ++ rest) d1
      (fun s hs => (hwf l (by simp)).2 s hs)
    obtain ⟨r3, d3⟩ := ih (off + 4 + ((l.map encStroke).flatten).length) rest d2
      (fun t ht => hwf t (by simp [ht]))
    have hlen : ((List.map encLayer (l :: ls)).flatten).length =
        4 + ((l.map encStroke).flatten).length + ((ls.map encLayer).flatten).length := by
      simp [encLayer, u32_length]
      omega
    refine ⟨?_, ?_⟩
    · show decLayers v5 data (ls.length + 1) off = _
      simp only [decLayers, r1, r2, r3, ebind_ok, epure_eq]
      rw [hlen]
      congr 2
      omega
    · rw [hlen]
      have harith : off + (4 + ((l.map encStroke).flatten).length +
          ((ls.map encLayer).flatten).length) =
          off + 4 + ((l.map encStroke).flatten).length +
          ((ls.map encLayer).flatten).length := by omega
      rw [harith]
      exact d3

theorem expected_header_v3_length : expected_header_v3.length = 43 := by decide

theorem expected_header_v5_length : expected_header_v5.length = 43 := by decide

theorem headers_ne : (expected_header_v3 == expected_header_v5) = false := by decide

theorem headers_ne' : (expected_header_v5 == expected_header_v3) = false := by decide

/-- Reading the fixed 43-byte tag from the front of the buffer. -/
theorem readBytes_header {hdr rest : List Nat} (hl : hdr.length = 43) :
    readBytes (hdr ++ rest) 0 43 = .ok (hdr, 43) ∧ (hdr ++ rest).drop 43 = rest := by
  constructor
  · unfold readBytes
    have hle : 0 + 43 ≤ (hdr ++ rest).length := by
      simp [List.length_append]
      omega
    rw [if_pos hle, List.drop_zero, ← hl, List.take_left]
    simp
  · rw [← hl, List.drop_left]

/-! ## Claims -/

/-- C1: for every buffer accepted by the header validator (valid version-3
or version-5 tag, layer count at least 1, well-formed nested
layer/stroke/segment records), decoding consumes exactly the buffer: the
final cursor offset equals the buffer length, no read overruns, no byte is
left, for every combination of layer, stroke and segment counts. -/
theorem C1_decode_consumes_buffer_exactly (f : BFile) (h : wfFile f = true) :
    decodeRm (encFile f) = .ok (f, (encFile f).length) := by
  obtain ⟨version, layers⟩ := f
  simp only [wfFile, Bool.and_eq_true, Bool.or_eq_true, beq_iff_eq,
    decide_eq_true_eq] at h
  obtain ⟨⟨⟨hver, hge1⟩, hlt⟩, hall⟩ := h
  have hall' : ∀ l ∈ layers, l.length < 2 ^ 32 ∧
      ∀ s ∈ l, wfStroke (version == 5) s = true := by
    intro l hl
    have hx := List.all_eq_true.mp hall l hl
    simpa [Bool.and_eq_true, decide_eq_true_eq, List.all_eq_true] using hx
  have hne : (layers.length == 0) = false := by
    simp only [beq_eq_false_iff_ne, ne_eq]
    omega
  rcases hver with hv | hv
  · subst hv
    have henc : encFile ⟨3, layers⟩ =
        expected_header_v3 ++ (u32 layers.length ++ (layers.map encLayer).flatten) := by
      simp [encFile, List.append_assoc]
    obtain ⟨rb, db⟩ := @readBytes_header expected_header_v3
      (u32 layers.length ++ (layers.map encLayer).flatten)
      expected_header_v3_length
    obtain ⟨ru, du⟩ := readU32_ok db hlt
    have du' : (expected_header_v3 ++ (u32 layers.length ++
        (layers.map encLayer).flatten)).drop 47 =
        (layers.map encLayer).flatten ++ [] := by
      rw [List.append_nil]
      simpa using du
    have hall3 : ∀ l ∈ layers, l.length < 2 ^ 32 ∧
        ∀ s ∈ l, wfStroke false s = true := by
      simpa using hall'
    obtain ⟨rl, dl⟩ := decLayers_ok layers 47 [] du' hall3
    have hlen : (expected_header_v3 ++ (u32 layers.length ++
        (layers.map encLayer).flatten)).length =
        47 + ((layers.map encLayer).flatten).length := by
      simp [List.length_append, expected_header_v3_length, u32_length]
      omega
    rw [henc]
    unfold decodeRm
    rw [if_neg (by rw [hlen]; omega)]
    simp only [rb, ebind_ok, ru, rl, epure_eq, beq_self_eq_true, headers_ne,
      Bool.not_true, Bool.not_false, Bool.false_and, Bool.false_or, hne,
      Bool.false_eq_true, if_false, if_true, hlen]
  · subst hv
    have henc : encFile ⟨5, layers⟩ =
        expected_header_v5 ++ (u32 layers.length ++ (layers.map encLayer).flatten) := by
      simp [encFile, List.append_assoc]
    obtain ⟨rb, db⟩ := @readBytes_header expected_header_v5
      (u32 layers.length ++ (layers.map encLayer).flatten)
      expected_header_v5_length
    obtain ⟨ru, du⟩ := readU32_ok db hlt
    have du' : (expected_header_v5 ++ (u32 layers.length ++
        (layers.map encLayer).flatten)).drop 47 =
        (layers.map encLayer).flatten ++ [] := by
      rw [List.append_nil]
      simpa using du
    have hall5 : ∀ l ∈ layers, l.length < 2 ^ 32 ∧
        ∀ s ∈ l, wfStroke true s = true := by
      simpa using hall'
    obtain ⟨rl, dl⟩ := decLayers_ok layers 47 [] du' hall5
    have hlen : (expected_header_v5 ++ (u32 layers.length ++
        (layers.map encLayer).flatten)).length =
        47 + ((layers.map encLayer).flatten).length := by
      simp [List.length_append, expected_header_v5_length, u32_length]
      omega
    rw [henc]
    unfold decodeRm
    rw [if_neg (by rw [hlen]; omega)]
    simp only [rb, ebind_ok, ru, rl, epure_eq, beq_self_eq_true, headers_ne',
      Bool.not_true, Bool.not_false, Bool.false_and, Bool.and_false, Bool.false_or, hne,
      Bool.false_eq_true, if_false, if_true, hlen]

/-- Witness for C1: the concrete two-layer version-5 file `exFileW` is
well-formed and decodes back to itself with the cursor at the end. -/
theorem C1_decode_consumes_buffer_exactly_witness :
    wfFile exFileW = true ∧
    decodeRm (encFile exFileW) = .ok (exFileW, (encFile exFileW).length) :=
  ⟨by decide, C1_decode_consumes_buffer_exactly exFileW (by decide)⟩

set_option maxRecDepth 8192 in
/-- C4: a stroke file whose 43-byte tag differs from both accepted headers
makes `_render_rm_file` call the undefined name `abort` (a `NameError`, not
a structured format error), and `pdf` has no handler around the call: the
error aborts the whole document loop instead of substituting a blank page,
so later pages are never rendered.  The third conjunct shows the same
document without the malformed page succeeds. -/
theorem C4_malformed_tag_kills_whole_document :
    decodeRm badTagData = .error PyError.nameError ∧
    pdf_pages [some badTagData, some (encFile exFileW)] = .error PyError.nameError ∧
    pdf_pages [some (encFile exFileW)] =
      .ok [some (exFileW, (encFile exFileW).length)] :=
  ⟨by decide, by decide, by decide⟩

/-- C5: for highlighter tool identifiers (5 and 18) the computed style has
opacity exactly 0.2 and color index exactly 3, for every raw pen width and
every incoming color index. -/
theorem C5_highlighter_opacity_color (pen c : Nat) (w : ℚ) (h : pen = 5 ∨ pen = 18) :
    (strokeStyle pen c w).opacity = 0.2 ∧ (strokeStyle pen c w).color = 3 := by
  rcases h with h | h <;> subst h <;> exact ⟨rfl, rfl⟩

/-- Witness for C5 at pen id 5 with raw width 7. -/
theorem C5_highlighter_opacity_color_witness :
    (strokeStyle 5 0 7).opacity = 0.2 ∧ (strokeStyle 5 0 7).color = 3 :=
  C5_highlighter_opacity_color 5 0 7 (Or.inl rfl)

/-- C7: the per-segment width of every decoded segment is
`(6·baseWidth + 2·pressure)/8` (times the page ratio) for brush and
ballpoint strokes and `(5·baseWidth + 2·tilt + 1·pressure)/8` (times the
page ratio) for all other tool kinds, where `baseWidth` is the width
produced by the tool-kind width formula of the style step. -/
theorem C7_per_segment_width_formula (L : Layout) (st : Stroke) :
    strokeWidths L st = st.segments.map (fun seg =>
      (if is_brush st.pen || is_ballpoint st.pen then
        (6 * (strokeStyle st.pen st.color st.pen_width).pen_width +
          2 * seg.pressure) / 8
      else
        (5 * (strokeStyle st.pen st.color st.pen_width).pen_width +
          2 * seg.tilt + 1 * seg.pressure) / 8) * L.ratio) := by
  unfold strokeWidths
  apply List.map_congr_left
  intro seg _
  unfold segment_width
  rw [Bool.or_comm]
  cases hc : (is_brush st.pen || is_ballpoint st.pen) <;> simp [hc]

/-- C10: the opacity computed by the style step is never passed to the
canvas: the command stream emitted for a stroke is unchanged under any
replacement of the opacity field, so two strokes differing only in computed
opacity draw identically (transparency can come only from the alpha inside
the chosen `RLColor`, e.g. the 0.25 alpha of highlighter color 3). -/
theorem C10_opacity_never_reaches_canvas (lc : Option RLColor) (sty : StrokeStyle)
    (o : ℚ) (points : List (ℚ × ℚ)) (widths : List ℚ) :
    strokeDraw lc ⟨sty.color, sty.pen_width, o⟩ points widths =
      strokeDraw lc sty points widths := rfl

/-! ## Style and drawing helper lemmas -/

/-- The `pen_width` produced by the tool dispatch, as a plain conditional. -/
theorem penWidth_eq (pen c : Nat) (w : ℚ) :
    (strokeStyle pen c w).pen_width =
      if is_brush pen then w
      else if is_ballpoint pen || is_fineliner pen then 32 * w * w - 116 * w + 107
      else if is_marker pen then 64 * w - 112
      else if is_highlighter pen then 30
      else if is_eraser pen then 1280 * w * w - 4800 * w + 4510
      else if is_sharp_pencil pen || is_tilt_pencil pen then 16 * w - 27
      else w := by
  simp only [strokeStyle]
  split_ifs <;> rfl

/-- The `opacity` produced by the tool dispatch, as a plain conditional. -/
theorem opacity_eq (pen c : Nat) (w : ℚ) :
    (strokeStyle pen c w).opacity =
      if is_brush pen then 1
      else if is_ballpoint pen || is_fineliner pen then 1
      else if is_marker pen then 0.9
      else if is_highlighter pen then 0.2
      else if is_eraser pen then 1
      else if is_sharp_pencil pen || is_tilt_pencil pen then 0.9
      else 0 := by
  simp only [strokeStyle]
  split_ifs <;> rfl

/-- Unknown-pen classification spelled out on the individual classifiers. -/
theorem unknown_pen_facts {pen : Nat} (h : isUnknownPen pen = true) :
    is_brush pen = false ∧ is_ballpoint pen = false ∧ is_fineliner pen = false ∧
    is_marker pen = false ∧ is_highlighter pen = false ∧ is_eraser pen = false ∧
    is_sharp_pencil pen = false ∧ is_tilt_pencil pen = false ∧
    is_eraser_area pen = false := by
  simp only [isUnknownPen, Bool.not_eq_true', Bool.or_eq_false_iff] at h
  tauto

theorem countDrawPath_append (xs ys : List CanvasOp) :
    countDrawPath (xs ++ ys) = countDrawPath xs + countDrawPath ys := by
  induction xs with
  | nil => simp [countDrawPath]
  | cons x xs ih =>
    cases x <;> simp [countDrawPath, ih]
    omega

/-- The inner point loop never issues `drawPath`. -/
theorem drawLoop_countDrawPath (pw : List ((ℚ × ℚ) × ℚ)) :
    ∀ j, countDrawPath (drawLoop pw j) = 0 := by
  induction pw with
  | nil => intro j; rfl
  | cons h rest ih =>
    intro j
    obtain ⟨pt, w⟩ := h
    cases hj : (j % 5 == 0) <;>
      simp [drawLoop, hj, countDrawPath, countDrawPath_append, ih]

/-- Every successfully drawn stroke issues exactly one `drawPath`. -/
theorem strokeDraw_count {lc : Option RLColor} {sty : StrokeStyle}
    {points : List (ℚ × ℚ)} {widths : List ℚ} {ops : List CanvasOp}
    (h : strokeDraw lc sty points widths = .ok ops) :
    countDrawPath ops = 1 := by
  unfold strokeDraw at h
  cases hcol : resolveColor lc sty.color with
  | none => rw [hcol] at h; simp at h
  | some col =>
    rw [hcol] at h
    cases points with
    | nil => simp at h
    | cons p0 ps =>
      simp only [Except.ok.injEq] at h
      subst h
      simp [countDrawPath_append, countDrawPath, drawLoop_countDrawPath]

/-- C2 counterexample: a stroke with the unknown tool id 9 is NOT excluded
from the drawable output — the code only skips eraser and eraser-area
strokes (line 308), so the unknown stroke still contributes one drawn path. -/
theorem C2_counterexample :
    isUnknownPen exStroke9.pen = true ∧
    countDrawPath (opsOf (renderStroke exLayout none exStroke9)) = 1 := by
  constructor
  · decide
  · rfl

/-- C2 (amended): eraser-area strokes and unknown-tool strokes both get
opacity 0.0; an eraser-area stroke is skipped after its segments are
consumed and contributes no canvas command; but an unknown-tool stroke is
NOT excluded: whenever its color resolves and it has at least one segment
it contributes exactly one drawn path. -/
theorem C2_zero_opacity_and_exclusion (L : Layout) (lc : Option RLColor) (st : Stroke) :
    ((is_eraser_area st.pen || isUnknownPen st.pen) = true →
      (strokeStyle st.pen st.color st.pen_width).opacity = 0) ∧
    (is_eraser_area st.pen = true → renderStroke L lc st = .ok []) ∧
    (isUnknownPen st.pen = true → st.segments ≠ [] →
      (resolveColor lc (strokeStyle st.pen st.color st.pen_width).color).isSome = true →
      ∃ ops, renderStroke L lc st = .ok ops ∧ countDrawPath ops = 1) := by
  refine ⟨?_, ?_, ?_⟩
  · intro h
    rcases Bool.or_eq_true_iff.mp h with h8 | hu
    · have hpen : st.pen = 8 := by
        simpa [is_eraser_area] using h8
      rw [opacity_eq, hpen]
      simp [is_brush, is_ballpoint, is_fineliner, is_marker, is_highlighter,
        is_eraser, is_sharp_pencil, is_tilt_pencil]
    · obtain ⟨h1, h2, h3, h4, h5, h6, h7, h8, h9⟩ := unknown_pen_facts hu
      rw [opacity_eq]
      simp [h1, h2, h3, h4, h5, h6, h7, h8]
  · intro h
    unfold renderStroke
    rw [h]
    simp
  · intro hu hseg hcol
    obtain ⟨h1, h2, h3, h4, h5, h6, h7, h8, h9⟩ := unknown_pen_facts hu
    have hskip : (is_eraser_area st.pen || is_eraser st.pen) = false := by
      simp [h6, h9]
    have hrs : renderStroke L lc st =
        strokeDraw lc (strokeStyle st.pen st.color st.pen_width)
          (strokePoints L st) (strokeWidths L st) := by
      unfold renderStroke
      rw [hskip]
      simp
    obtain ⟨col, hcol'⟩ := Option.isSome_iff_exists.mp hcol
    cases hS : st.segments with
    | nil => exact absurd hS hseg
    | cons s0 srest =>
      have hpts : strokePoints L st = transformPoint L s0.x s0.y ::
          srest.map (fun s => transformPoint L s.x s.y) := by
        simp [strokePoints, hS]
      have hok : ∃ ops, strokeDraw lc (strokeStyle st.pen st.color st.pen_width)
          (strokePoints L st) (strokeWidths L st) = .ok ops := by
        unfold strokeDraw
        rw [hcol', hpts]
        exact ⟨_, rfl⟩
      obtain ⟨ops, hops⟩ := hok
      exact ⟨ops, by rw [hrs]; exact hops, strokeDraw_count hops⟩

/-- Witness for C2 at the concrete eraser-area stroke `exStroke8` and the
concrete unknown-pen stroke `exStroke9`. -/
theorem C2_zero_opacity_and_exclusion_witness :
    (strokeStyle exStroke8.pen exStroke8.color exStroke8.pen_width).opacity = 0 ∧
    renderStroke exLayout none exStroke8 = .ok [] ∧
    (∃ ops, renderStroke exLayout none exStroke9 = .ok ops ∧ countDrawPath ops = 1) :=
  ⟨(C2_zero_opacity_and_exclusion exLayout none exStroke8).1 (by decide),
   (C2_zero_opacity_and_exclusion exLayout none exStroke8).2.1 (by decide),
   (C2_zero_opacity_and_exclusion exLayout none exStroke9).2.2 (by decide)
     (by decide) (by decide)⟩

/-- A nonnegative base width blended with nonnegative pressure/tilt stays
nonnegative (at unit ratio). -/
theorem segw_nonneg {pen : Nat} {b p t : ℚ} (hb : 0 ≤ b) (hp : 0 ≤ p) (ht : 0 ≤ t) :
    0 ≤ segment_width pen b p t 1 := by
  unfold segment_width
  split_ifs <;> nlinarith

/-- A base width at most −11 makes the non-ballpoint blend negative for
pressure/tilt at most 1 (at unit ratio). -/
theorem segw_neg {pen : Nat} {b p t : ℚ}
    (hpen : (is_ballpoint pen || is_brush pen) = false)
    (hb : b ≤ -11) (hp : p ≤ 1) (ht : t ≤ 1) :
    segment_width pen b p t 1 < 0 := by
  unfold segment_width
  rw [hpen]
  simp only [Bool.false_eq_true, if_false]
  nlinarith

/-- C8 counterexample: for the marker tool at the in-range raw pen width 0
the computed per-segment width is −70: the linear marker formula is negative
on [0, 1] and the implementation neither clamps nor documents it — the
negative width flows straight into the draw command. -/
theorem C8_counterexample :
    segment_width 3 (strokeStyle 3 0 0).pen_width 0 0 1 = -70 ∧
    ¬ (0 : ℚ) ≤ (-70 : ℚ) := by
  constructor
  · norm_num [segment_width, strokeStyle, is_brush, is_ballpoint, is_fineliner,
      is_marker, is_highlighter, is_eraser, is_sharp_pencil, is_tilt_pencil]
  · norm_num

/-- C8 (amended): for raw pen width, pressure and tilt in [0, 1] the
per-segment width (before page scaling, i.e. at unit ratio) is nonnegative
for every tool kind except marker and the two pencils; for marker and
sharp/tilt-pencil identifiers the linear base-width formulas are negative
throughout [0, 1] and nothing clamps them: the computed width is strictly
negative. -/
theorem C8_width_sign (pen c : Nat) (w p t : ℚ)
    (hw0 : 0 ≤ w) (hw1 : w ≤ 1) (hp0 : 0 ≤ p) (hp1 : p ≤ 1)
    (ht0 : 0 ≤ t) (ht1 : t ≤ 1) :
    ((is_marker pen || is_sharp_pencil pen || is_tilt_pencil pen) = false →
      0 ≤ segment_width pen (strokeStyle pen c w).pen_width p t 1) ∧
    ((is_marker pen || is_sharp_pencil pen || is_tilt_pencil pen) = true →
      segment_width pen (strokeStyle pen c w).pen_width p t 1 < 0) := by
  constructor
  · intro hfalse
    simp only [Bool.or_eq_false_iff] at hfalse
    obtain ⟨⟨hm, hsp⟩, htp⟩ := hfalse
    apply segw_nonneg ?_ hp0 ht0
    rw [penWidth_eq]
    split_ifs with h1 h2 h3 h4 h5 h6
    · exact hw0
    · nlinarith [sq_nonneg (16 * w - 29)]
    · exact absurd h3 (by simp [hm])
    · norm_num
    · nlinarith [sq_nonneg (16 * w - 30)]
    · exact absurd h6 (by simp [hsp, htp])
    · exact hw0
  · intro htrue
    have hcase : pen = 3 ∨ pen = 16 ∨ pen = 7 ∨ pen = 13 ∨ pen = 1 ∨ pen = 14 := by
      simp only [is_marker, is_sharp_pencil, is_tilt_pencil, Bool.or_eq_true_iff,
        beq_iff_eq] at htrue
      tauto
    rcases hcase with h | h | h | h | h | h <;> subst h
    all_goals refine segw_neg rfl ?_ hp1 ht1
    all_goals rw [penWidth_eq]
    all_goals norm_num [is_brush, is_ballpoint, is_fineliner, is_marker,
      is_highlighter, is_eraser, is_sharp_pencil, is_tilt_pencil]
    all_goals linarith

/-- Witness for C8: brush (pen 0) at width 1/2 gives a nonnegative width,
marker (pen 3) at width 1/2 gives a negative width. -/
theorem C8_width_sign_witness :
    0 ≤ segment_width 0 (strokeStyle 0 0 (1/2)).pen_width (1/2) (1/2) 1 ∧
    segment_width 3 (strokeStyle 3 0 (1/2)).pen_width (1/2) (1/2) 1 < 0 :=
  ⟨(C8_width_sign 0 0 (1/2) (1/2) (1/2) (by norm_num) (by norm_num) (by norm_num)
      (by norm_num) (by norm_num) (by norm_num)).1 (by decide),
   (C8_width_sign 3 0 (1/2) (1/2) (1/2) (by norm_num) (by norm_num) (by norm_num)
      (by norm_num) (by norm_num) (by norm_num)).2 (by decide)⟩


/-- Drawing a stroke with an empty point list fails: either the color key
lookup fails first (`KeyError`) or `points[0]` raises `IndexError`. -/
theorem strokeDraw_nil_err (lc : Option RLColor) (sty : StrokeStyle) (ws : List ℚ) :
    ∃ e, strokeDraw lc sty [] ws = .error e := by
  unfold strokeDraw
  cases resolveColor lc sty.color <;> exact ⟨_, rfl⟩

/-- A drawable (non-skipped) stroke with no segments makes `renderStroke`
raise. -/
theorem renderStroke_nil_err {L : Layout} {lc : Option RLColor} {st : Stroke}
    (h1 : (is_eraser_area st.pen || is_eraser st.pen) = false)
    (h2 : st.segments = []) :
    ∃ e, renderStroke L lc st = .error e := by
  unfold renderStroke
  rw [h1]
  simp only [Bool.false_eq_true, if_false]
  have hpts : strokePoints L st = [] := by simp [strokePoints, h2]
  rw [hpts]
  exact strokeDraw_nil_err lc _ _

/-- If any stroke of the list is drawable with no segments, the stroke loop
raises. -/
theorem renderStrokes_err {L : Layout} {lc : Option RLColor} :
    ∀ l : List Stroke,
    (∃ st ∈ l, (is_eraser_area st.pen || is_eraser st.pen) = false ∧
      st.segments = []) →
    ∃ e, renderStrokes L lc l = .error e := by
  intro l
  induction l with
  | nil =>
    rintro ⟨st, hmem, hbad⟩
    exact absurd hmem (List.not_mem_nil st)
  | cons s rest ih =>
    rintro ⟨st, hmem, hbad⟩
    rcases List.mem_cons.mp hmem with he | hm
    · obtain ⟨e, herr⟩ := @renderStroke_nil_err L lc s
        (he ▸ hbad.1) (he ▸ hbad.2)
      exact ⟨e, by simp [renderStrokes, herr, ebind_err, emap_err]⟩
    · cases hr : renderStroke L lc s with
      | error e => exact ⟨e, by simp [renderStrokes, hr, ebind_err, emap_err]⟩
      | ok ops =>
        obtain ⟨e, herr⟩ := ih ⟨st, hm, hbad⟩
        exact ⟨e, by simp [renderStrokes, hr, herr, ebind_ok, ebind_err, emap_err]⟩

/-- If any layer contains a drawable stroke with no segments, the layer loop
raises, for any layer-color list. -/
theorem renderLayers_err {L : Layout} :
    ∀ (layers : List (List Stroke)) (lcs : List (Option RLColor)),
    (∃ l ∈ layers, ∃ st ∈ l,
      (is_eraser_area st.pen || is_eraser st.pen) = false ∧ st.segments = []) →
    ∃ e, renderLayers L lcs layers = .error e := by
  intro layers
  induction layers with
  | nil =>
    rintro lcs ⟨l, hmem, _⟩
    exact absurd hmem (List.not_mem_nil l)
  | cons l rest ih =>
    rintro lcs ⟨l', hmem, hst⟩
    rcases List.mem_cons.mp hmem with he | hm
    · obtain ⟨e, herr⟩ := @renderStrokes_err L (lcs.head?.getD none) l
        (he ▸ hst)
      exact ⟨e, by simp [renderLayers, herr, ebind_err, emap_err]⟩
    · cases hr : renderStrokes L (lcs.head?.getD none) l with
      | error e => exact ⟨e, by simp [renderLayers, hr, ebind_err, emap_err]⟩
      | ok ops =>
        obtain ⟨e, herr⟩ := ih lcs.tail ⟨l', hm, hst⟩
        exact ⟨e, by simp [renderLayers, hr, herr, ebind_ok, ebind_err, emap_err]⟩

/-- C9: a drawable stroke (one not skipped by the eraser/eraser-area test)
whose declared segment count is zero leaves `points` empty, and the path
builder accesses `points[0]` with no guard: rendering any file containing
such a stroke does not complete normally. -/
theorem C9_zero_segment_stroke_raises (iw ih : ℚ) (crop : Option CropBox)
    (lcs : List (Option RLColor)) (layers : List (List Stroke))
    (h : ∃ l ∈ layers, ∃ st ∈ l,
      (is_eraser_area st.pen || is_eraser st.pen) = false ∧ st.segments = []) :
    ∃ e, render_rm_file iw ih crop lcs layers = .error e := by
  obtain ⟨e, herr⟩ := @renderLayers_err (computeLayout iw ih crop) layers lcs h
  exact ⟨e, by simp [render_rm_file, herr, ebind_err, emap_err]⟩

/-- Witness for C9: one layer holding one zero-segment fineliner stroke. -/
theorem C9_zero_segment_stroke_raises_witness :
    ∃ e, render_rm_file 1404 1872 none [] [[exStrokeEmpty]] = .error e :=
  C9_zero_segment_stroke_raises 1404 1872 none [] [[exStrokeEmpty]]
    ⟨[exStrokeEmpty], by decide, exStrokeEmpty, by decide, by decide, by decide⟩

/-- C6: when the target page's width exceeds its height the renderer swaps
width and height for internal layout (the default crop box becomes
`[0, 0, ih, iw]`, the overlay width comes from the crop box and the overlay
height starts from the original width), computes the scale ratio from the
height (`image_height / 1872`), and tags the returned overlay with a
90-degree rotation; when width does not exceed height there is no swap, the
ratio is width-based (`image_width / 1404`) and no rotation is applied. -/
theorem C6_landscape_swap_and_rotate (iw ih : ℚ) (crop : Option CropBox)
    (lcs : List (Option RLColor)) (layers : List (List Stroke)) (ov : Overlay) :
    (ih < iw →
      (computeLayout iw ih crop).is_landscape = true ∧
      (computeLayout iw ih crop).image_width =
        (crop.getD ⟨0, 0, ih, iw⟩).c2 - (crop.getD ⟨0, 0, ih, iw⟩).c0 ∧
      (computeLayout iw ih crop).image_height =
        pymax iw (((crop.getD ⟨0, 0, ih, iw⟩).c2 - (crop.getD ⟨0, 0, ih, iw⟩).c0) *
          DEFAULT_IMAGE_HEIGHT / DEFAULT_IMAGE_WIDTH) ∧
      (computeLayout iw ih crop).ratio =
        (computeLayout iw ih crop).image_height / DEFAULT_IMAGE_HEIGHT ∧
      (render_rm_file iw ih crop lcs layers = .ok ov → ov.rotate = some 90)) ∧
    (¬ ih < iw →
      (computeLayout iw ih crop).is_landscape = false ∧
      (computeLayout iw ih crop).ratio =
        (computeLayout iw ih crop).image_width / DEFAULT_IMAGE_WIDTH ∧
      (render_rm_file iw ih crop lcs layers = .ok ov → ov.rotate = none)) := by
  constructor
  · intro hlt
    have hland : decide (iw > ih) = true := decide_eq_true hlt
    refine ⟨?_, ?_, ?_, ?_, ?_⟩
    · simp [computeLayout, hland]
    · simp [computeLayout, hland]
    · simp [computeLayout, hland]
    · simp [computeLayout, hland]
    · intro hr
      have hLl : (computeLayout iw ih crop).is_landscape = true := by
        simp [computeLayout, hland]
      simp only [render_rm_file] at hr
      cases hrl : renderLayers (computeLayout iw ih crop) lcs layers with
      | error e => simp [hrl, ebind_err, emap_err] at hr
      | ok ops =>
        rw [hrl] at hr
        simp only [ebind_ok, epure_eq, Except.ok.injEq] at hr
        subst hr
        simp [hLl]
  · intro hge
    have hland : decide (iw > ih) = false := decide_eq_false hge
    refine ⟨?_, ?_, ?_⟩
    · simp [computeLayout, hland]
    · simp [computeLayout, hland]
    · intro hr
      have hLl : (computeLayout iw ih crop).is_landscape = false := by
        simp [computeLayout, hland]
      simp only [render_rm_file] at hr
      cases hrl : renderLayers (computeLayout iw ih crop) lcs layers with
      | error e => simp [hrl, ebind_err, emap_err] at hr
      | ok ops =>
        rw [hrl] at hr
        simp only [ebind_ok, epure_eq, Except.ok.injEq] at hr
        subst hr
        simp [hLl]

/-- Witness for C6 at a 2000 x 1000 landscape page with one empty layer. -/
theorem C6_landscape_swap_and_rotate_witness :
    Overlay.rotate ⟨1000, 2000, [], some 90⟩ = some 90 :=
  ((C6_landscape_swap_and_rotate 2000 1000 none [] [[]]
      ⟨1000, 2000, [], some 90⟩).1 (by norm_num)).2.2.2.2
    (by norm_num [render_rm_file, renderLayers, renderStrokes, computeLayout,
      pymax, DEFAULT_IMAGE_WIDTH, DEFAULT_IMAGE_HEIGHT, ebind_ok, epure_eq])

/-- The default 1404 x 1872 page with no crop box yields the identity-ratio
portrait layout. -/
theorem computeLayout_default : computeLayout 1404 1872 none = exLayout := by
  norm_num [computeLayout, pymax, DEFAULT_IMAGE_WIDTH, DEFAULT_IMAGE_HEIGHT, exLayout]

/-- C3 counterexample: in the version-5 highlighter scenario the per-point
width is NOT `30 × ratio`: with pressure 1 and tilt 1 on the first segment
and 0/0 on the second, the two drawn widths are 153/8 and 75/4 (ratio is 1
for the default page), both different from 30 and from each other — the
highlighter's constant 30 is still blended with pressure and tilt. -/
theorem C3_counterexample :
    widthsOf (overlayOps (hlScenario 0 0 0 1 2 0 1 1 0 3 4 0 0 0 0)) =
      [153/8, 75/4] ∧
    ¬ (153 / 8 : ℚ) = 30 * (computeLayout 1404 1872 none).ratio := by
  constructor
  · have hOv : hlScenario 0 0 0 1 2 0 1 1 0 3 4 0 0 0 0 = .ok ⟨1404, 1872,
        [.setLineCap 1, .setStrokeColor ⟨255/255, 255/255, 0, 0.25⟩,
         .moveTo (1 * 1 + 0) (1872 - 1 * 2 + 0),
         .setLineWidth ((5 * 30 + 2 * 1 + 1 * 1) / 8 * 1),
         .lineTo (1 * 1 + 0) (1872 - 1 * 2 + 0),
         .moveTo (1 * 1 + 0) (1872 - 1 * 2 + 0),
         .closePath,
         .setLineWidth ((5 * 30 + 2 * 0 + 1 * 0) / 8 * 1),
         .lineTo (1 * 3 + 0) (1872 - 1 * 4 + 0),
         .moveTo (1 * 3 + 0) (1872 - 1 * 4 + 0),
         .closePath, .drawPath], none⟩ := by
      unfold hlScenario render_rm_file
      rw [computeLayout_default]
      rfl
    rw [hOv]
    show [(5 * 30 + 2 * 1 + 1 * 1 : ℚ) / 8 * 1, (5 * 30 + 2 * 0 + 1 * 0) / 8 * 1] =
      [153/8, 75/4]
    norm_num
  · rw [computeLayout_default]
    norm_num [exLayout]

/-- C3 (amended): the version-5 highlighter scenario (1 layer, 1 stroke of
pen 5 with raw width 2.0, 2 segments at arbitrary positions) renders
successfully to exactly one drawable path whose stroke color is the
highlighter table entry for forced color index 3 and whose style opacity is
0.2; but the per-point width is `(5·30 + 2·tilt + 1·pressure)/8` times the
page ratio (here 1), not `30 × ratio`: pressure and tilt are not ignored. -/
theorem C3_highlighter_scenario (c iu : Nat) (uf x1 y1 i1 p1 t1 r1 x2 y2 i2 p2 t2 r2 : ℚ) :
    (∃ ov, hlScenario c iu uf x1 y1 i1 p1 t1 r1 x2 y2 i2 p2 t2 r2 = .ok ov) ∧
    countDrawPath (overlayOps (hlScenario c iu uf x1 y1 i1 p1 t1 r1 x2 y2 i2 p2 t2 r2)) = 1 ∧
    colorsOf (overlayOps (hlScenario c iu uf x1 y1 i1 p1 t1 r1 x2 y2 i2 p2 t2 r2)) =
      [⟨255/255, 255/255, 0, 0.25⟩] ∧
    widthsOf (overlayOps (hlScenario c iu uf x1 y1 i1 p1 t1 r1 x2 y2 i2 p2 t2 r2)) =
      [(5 * 30 + 2 * t1 + 1 * p1) / 8, (5 * 30 + 2 * t2 + 1 * p2) / 8] ∧
    (strokeStyle 5 c 2).color = 3 ∧ (strokeStyle 5 c 2).opacity = 0.2 := by
  have hOv : hlScenario c iu uf x1 y1 i1 p1 t1 r1 x2 y2 i2 p2 t2 r2 = .ok ⟨1404, 1872,
      [.setLineCap 1, .setStrokeColor ⟨255/255, 255/255, 0, 0.25⟩,
       .moveTo (1 * x1 + 0) (1872 - 1 * y1 + 0),
       .setLineWidth ((5 * 30 + 2 * t1 + 1 * p1) / 8 * 1),
       .lineTo (1 * x1 + 0) (1872 - 1 * y1 + 0),
       .moveTo (1 * x1 + 0) (1872 - 1 * y1 + 0),
       .closePath,
       .setLineWidth ((5 * 30 + 2 * t2 + 1 * p2) / 8 * 1),
       .lineTo (1 * x2 + 0) (1872 - 1 * y2 + 0),
       .moveTo (1 * x2 + 0) (1872 - 1 * y2 + 0),
       .closePath, .drawPath], none⟩ := by
    unfold hlScenario render_rm_file
    rw [computeLayout_default]
    rfl
  refine ⟨⟨_, hOv⟩, by rw [hOv]; rfl, by rw [hOv]; rfl, ?_, rfl, rfl⟩
  rw [hOv]
  show [(5 * 30 + 2 * t1 + 1 * p1) / 8 * 1, (5 * 30 + 2 * t2 + 1 * p2) / 8 * 1] = _
  simp only [List.cons.injEq, and_true]
  constructor
  · ring
  · ring
